import Mathlib

/-!
Verification of the Electronic Actor Enhancement Controller
(`examples/electronicActorEnhancementController/main.py`).

The Python classes `Dimmer`, `Flicker`, `StateMachine` and `TriggeredState`
are shallowly embedded: each object becomes a structure, each mutating
method becomes a function from the old state to the new state, together
with the list of duty-cycle values written to the PWM sink during the
call.  Fallible operations (list indexing that can raise `IndexError`,
dict lookup that can raise `KeyError`, a shift by a negative amount that
can raise `ValueError`) return `Option`/`Except`.  Python's unbounded
non-negative integers are `Nat`; setter arguments, which may be negative,
are `Int`.  The gamma table, computed in the source with `float`
arithmetic, is modelled over the reals.
-/

namespace ActorController

/-! ## Dimmer effect (`class Dimmer(Effect)`) -/

/-- State of a `Dimmer` object.  `linear_to_gamma` is the gamma table built
in `Dimmer.__init__`; `last_dim = none` models `self.__last_dim = None`.
The write-only field `__last_strobe` is never read in the source and is
omitted. -/
structure Dimmer where
  dim : Nat
  strobe : Nat
  transition_period : Nat
  last_transition_time : Nat
  next_transition : Bool
  last_dim : Option Nat
  linear_to_gamma : List Nat
deriving DecidableEq, Repr

/-- `Dimmer.__init__` after the gamma table (`table`) has been built:
`dim = 0`, `strobe = 0`, the PWM output is initialised to the raw value `0`
and `__last_dim` caches it. -/
def Dimmer.init (table : List Nat) : Dimmer :=
  { dim := 0, strobe := 0, transition_period := 0, last_transition_time := 0,
    next_transition := true, last_dim := some 0, linear_to_gamma := table }

/-- The `dim` property setter: clamp below at 0, above at 255. -/
def Dimmer.set_dim (d : Dimmer) (value : Int) : Dimmer :=
  let value := if value < 0 then 0 else value
  let value := if value > 255 then 255 else value
  { d with dim := value.toNat }

/-- The `strobe` property setter: clamp the frequency into 0..1400 and,
when it is positive, recompute
`transition_period = int((NANOSECONDS_PER_SECOND / frequency) // 2)`.
For an integer frequency the float computation of the source equals the
natural-number division `(1000000000 / f) / 2`. -/
def Dimmer.set_strobe (d : Dimmer) (frequency : Int) : Dimmer :=
  let frequency := if frequency < 0 then 0 else frequency
  let frequency := if frequency > 1400 then 1400 else frequency
  let d := { d with strobe := frequency.toNat }
  if frequency > 0 then
    { d with transition_period := (1000000000 / frequency.toNat) / 2 }
  else d

/-- `Dimmer.enter`: reset the strobe timer and phase and invalidate the
cached last-rendered value. -/
def Dimmer.enter (d : Dimmer) : Dimmer :=
  { d with last_transition_time := 0, next_transition := true, last_dim := none }

/-- `Dimmer.update(now)`.  Returns the new object state and the list of
values written to `pwmout.duty_cycle` during the call, or `none` when the
gamma-table lookup `self.__linear_to_gamma[self.__dim]` would raise
`IndexError`. -/
def Dimmer.update (d : Dimmer) (now : Nat) : Option (Dimmer × List Nat) :=
  if d.strobe = 0 then
    -- constant
    if d.last_dim = none ∨ ¬ d.last_dim = some d.dim then
      match d.linear_to_gamma.get? d.dim with
      | none => none
      | some g => some ({ d with last_dim := some d.dim }, [g])
    else
      some (d, [])
  else
    -- strobing
    if d.last_transition_time + d.transition_period ≤ now then
      if d.next_transition then
        match d.linear_to_gamma.get? d.dim with
        | none => none
        | some g =>
          some ({ d with
                    last_transition_time := now
                    last_dim := some d.dim
                    next_transition := !d.next_transition }, [g])
      else
        some ({ d with
                  last_transition_time := now
                  last_dim := some 0
                  next_transition := !d.next_transition }, [0])
    else
      some (d, [])

/-! ## Flicker effect (`class Flicker(Effect)`) -/

/-- State of a `Flicker` object.  In the source the constructor leaves the
subclass field `_Flicker__dim` unset (Python name mangling stores the base
class's `self.__dim = 0` under a different attribute name); every
construction site immediately assigns `effect.dim = ...`, so `init` below
folds that mandatory first setter call into construction. -/
structure Flicker where
  rnd_lfsr : Nat
  last_flicker : Nat
  duty_cycle : Nat
  dim : Nat
deriving DecidableEq, Repr

/-- The `dim` property setter of `Flicker`: clamp below at 0, above at 5. -/
def Flicker.set_dim (f : Flicker) (value : Int) : Flicker :=
  let value := if value < 0 then 0 else value
  let value := if value > 5 then 5 else value
  { f with dim := value.toNat }

/-- `Flicker.__init__(pwmout, seed)` followed by the `effect.dim = value`
assignment that every construction site performs. -/
def Flicker.init (seed : Nat) (value : Int) : Flicker :=
  Flicker.set_dim { rnd_lfsr := seed, last_flicker := 0, duty_cycle := 0, dim := 0 } value

/-- `Flicker._lfsr_step`: one step of the Galois linear-feedback shift
register with feedback mask `0x822B`, applied when the low bit is set. -/
def Flicker.lfsr_step (rnd_lfsr : Nat) : Nat :=
  if rnd_lfsr &&& 1 = 1 then
    (rnd_lfsr >>> 1) ^^^ 0x822B
  else
    rnd_lfsr >>> 1

/-- The `for i in range(3)` loop at the end of `Flicker.update`, unrolled:
step the LFSR, stopping after the first step whose low byte exceeds 128,
at most three steps. -/
def Flicker.lfsr_advance (s : Nat) : Nat :=
  let s1 := Flicker.lfsr_step s
  if s1 &&& 0xff > 128 then s1
  else
    let s2 := Flicker.lfsr_step s1
    if s2 &&& 0xff > 128 then s2
    else Flicker.lfsr_step s2

/-- `Flicker.update(now)`.  Returns the new object state, the list of
values written to `pwmout.duty_cycle`, and the value returned by the
method.  Returns `none` when `duty_cycle >> (6 - dim)` would raise
`ValueError` in the source (negative shift count, i.e. `dim > 6`). -/
def Flicker.update (f : Flicker) (now : Nat) : Option (Flicker × List Nat × Nat) :=
  if f.last_flicker + 33333333 ≤ now then
    if f.dim = 0 then
      -- off
      some (f, [0], 0)
    else if 6 < f.dim then none
    else
      let lowpass := f.duty_cycle
      let newval := if f.rnd_lfsr &&& 0x100 ≠ 0 then 255 else f.rnd_lfsr &&& 255
      -- IIR filter with lag 2, then dim by shifting
      let dc := (lowpass - (lowpass >>> 1) + (newval <<< 7)) >>> (6 - f.dim)
      some ({ f with
                last_flicker := now
                duty_cycle := dc
                rnd_lfsr := Flicker.lfsr_advance f.rnd_lfsr }, [dc], dc)
  else
    some (f, [], f.duty_cycle)

/-! ## State machine (`class StateMachine`) -/

/-- Observable calls made by the state machine onto its `State` objects. -/
inductive SMEvent where
  | exitEv : String → SMEvent
  | enterEv : String → SMEvent
  | updateEv : String → SMEvent
deriving DecidableEq, Repr

/-- `StateMachine` state: the name of the active state (`None` initially)
and the keys of the `states` dict (states are registered under
`state.name` by `add_state`). -/
structure StateMachine where
  state : Option String
  states : List String
deriving DecidableEq, Repr

/-- `StateMachine.__init__`. -/
def StateMachine.init : StateMachine :=
  { state := none, states := [] }

/-- `StateMachine.add_state`: register a state under its name. -/
def StateMachine.add_state (m : StateMachine) (name : String) : StateMachine :=
  { m with states := m.states ++ [name] }

/-- `StateMachine.go_to_state(state_name)`: if a state is active, call its
`exit()`; then look up `states[state_name]` — a missing key raises
`KeyError` (the `UnknownState` fault), after the old state's `exit()` has
already run, which the error value records — make it active and call its
`enter()`.  The result carries the trace of `exit`/`enter` calls. -/
def StateMachine.go_to_state (m : StateMachine) (state_name : String) :
    Except (List SMEvent) (StateMachine × List SMEvent) :=
  let exitEvs := match m.state with
    | some s => [SMEvent.exitEv s]
    | none => []
  if state_name ∈ m.states then
    Except.ok ({ m with state := some state_name },
      exitEvs ++ [SMEvent.enterEv state_name])
  else
    Except.error exitEvs

/-- `StateMachine.update`: delegate to the active state's `update()` if one
is active, otherwise do nothing. -/
def StateMachine.update (m : StateMachine) : StateMachine × List SMEvent :=
  match m.state with
  | some s => (m, [SMEvent.updateEv s])
  | none => (m, [])

/-! ## Triggered state (`class TriggeredState(State)`) -/

/-- An effect owned by a state: either a `Dimmer` or a `Flicker`. -/
inductive EffectState where
  | dimmer : Dimmer → EffectState
  | flicker : Flicker → EffectState
deriving DecidableEq, Repr

/-- `effect.update(now=now)` on either effect variant: new state plus the
values written to the PWM sink. -/
def EffectState.update (e : EffectState) (now : Nat) : Option (EffectState × List Nat) :=
  match e with
  | EffectState.dimmer d => (Dimmer.update d now).map fun p => (EffectState.dimmer p.1, p.2)
  | EffectState.flicker f => (Flicker.update f now).map fun p => (EffectState.flicker p.1, p.2.1)

/-- The `for effect in self.effects: effect.update(now=now)` loop: every
effect is updated with the same `now`, writes are concatenated in order. -/
def updateEffects : List EffectState → Nat → Option (List EffectState × List Nat)
  | [], _ => some ([], [])
  | e :: es, now =>
    match e.update now with
    | none => none
    | some (e', w) =>
      match updateEffects es now with
      | none => none
      | some (es', ws) => some (e' :: es', w ++ ws)

/-- `TriggeredState.update(machine)`: if playback has finished
(`not self.i2s.playing`), request the transition back to `ambient` and
return without touching any effect; otherwise sample `now` once and update
every owned effect with it.  The `Bool` in the result records whether the
transition back to `ambient` was requested. -/
def TriggeredState.update (effects : List EffectState) (playing : Bool) (now : Nat) :
    Option (Bool × List EffectState × List Nat) :=
  if !playing then
    some (true, effects, [])
  else
    (updateEffects effects now).map fun p => (false, p.1, p.2)

/-! ## Gamma table (`Dimmer.__init__`, lines 152-158)

The source computes the table with Python `float` arithmetic; floating
point is not kernel-representable, so the table is modelled over the
reals, following the same formula
`int(((float(i) / float(max_in)) ** gamma) * max_out + 0.5)` with
`max_in = 255`, `max_out = 65535` (the argument is non-negative, so
Python's truncating `int` is the floor). -/

/-- Entry `i` of the gamma table for exponent `gamma`. -/
noncomputable def gammaEntry (gamma : ℝ) (i : ℕ) : ℤ :=
  ⌊((i : ℝ) / 255) ^ gamma * 65535 + 1 / 2⌋

/-- The gamma table built by the `for i in range(max_in + 1)` loop. -/
noncomputable def gammaTable (gamma : ℝ) : List ℤ :=
  (List.range 256).map (gammaEntry gamma)

/-! ## Claim C1: controller transition protocol -/

/-- Claim C1: for every `StateMachine` with states `ambient` and
`triggered` registered and `ambient` active, `go_to_state("triggered")`
invokes exactly the sequence `ambient.exit()` then `triggered.enter()`
(old state's exit strictly before new state's enter); and `update()` on a
machine whose active state is `None` performs no action and raises no
fault. -/
theorem StateMachine.transition_protocol (m : StateMachine)
    (ht : "triggered" ∈ m.states) (hs : m.state = some "ambient") :
    m.go_to_state "triggered" =
      Except.ok ({ m with state := some "triggered" },
        [SMEvent.exitEv "ambient", SMEvent.enterEv "triggered"]) ∧
    ∀ m' : StateMachine, m'.state = none → m'.update = (m', []) := by
  constructor
  · simp [StateMachine.go_to_state, hs, ht]
  · intro m' h
    simp [StateMachine.update, h]

/-- Witness for C1 at a concrete machine. -/
theorem StateMachine.transition_protocol_witness :
    (StateMachine.mk (some "ambient") ["ambient", "triggered"]).go_to_state "triggered" =
      Except.ok (StateMachine.mk (some "triggered") ["ambient", "triggered"],
        [SMEvent.exitEv "ambient", SMEvent.enterEv "triggered"]) ∧
    (StateMachine.mk none ["ambient", "triggered"]).update =
      (StateMachine.mk none ["ambient", "triggered"], []) := by
  have h := StateMachine.transition_protocol
    (StateMachine.mk (some "ambient") ["ambient", "triggered"]) (by decide) rfl
  exact ⟨h.1, h.2 _ rfl⟩

/-! ## Claim C10: unknown state names fault, registered names do not -/

/-- Claim C10: `go_to_state` with a name not registered in the `states`
mapping fails with the `UnknownState` fault (`KeyError`), and with a
registered name it does not fault; in a machine with both `ambient` and
`triggered` registered — the only names ever requested — neither request
faults. -/
theorem StateMachine.go_to_state_fault_spec (m : StateMachine) (name : String) :
    (name ∉ m.states → m.go_to_state name =
      Except.error (match m.state with | some s => [SMEvent.exitEv s] | none => [])) ∧
    (name ∈ m.states → m.go_to_state name =
      Except.ok ({ m with state := some name },
        (match m.state with | some s => [SMEvent.exitEv s] | none => []) ++
          [SMEvent.enterEv name])) ∧
    ("ambient" ∈ m.states → "triggered" ∈ m.states →
      m.go_to_state "ambient" =
        Except.ok ({ m with state := some "ambient" },
          (match m.state with | some s => [SMEvent.exitEv s] | none => []) ++
            [SMEvent.enterEv "ambient"]) ∧
      m.go_to_state "triggered" =
        Except.ok ({ m with state := some "triggered" },
          (match m.state with | some s => [SMEvent.exitEv s] | none => []) ++
            [SMEvent.enterEv "triggered"])) := by
  refine ⟨fun h => ?_, fun h => ?_, fun ha ht => ⟨?_, ?_⟩⟩ <;>
    simp [StateMachine.go_to_state, *]

/-- Witness for C10 at a concrete machine and names. -/
theorem StateMachine.go_to_state_fault_spec_witness :
    (StateMachine.mk none ["ambient", "triggered"]).go_to_state "bogus" =
      Except.error [] ∧
    (StateMachine.mk none ["ambient", "triggered"]).go_to_state "ambient" =
      Except.ok (StateMachine.mk (some "ambient") ["ambient", "triggered"],
        [SMEvent.enterEv "ambient"]) := by
  have h := StateMachine.go_to_state_fault_spec
    (StateMachine.mk none ["ambient", "triggered"]) "bogus"
  exact ⟨h.1 (by decide), ((h.2.2 (by decide) (by decide)).1 : _)⟩

/-! ## Dimmer update lemmas -/

/-- Nested floor division: `(10^9 / n) / 2 = 500000000 / n`. -/
theorem billion_div_div (n : Nat) : 1000000000 / n / 2 = 500000000 / n := by
  rw [Nat.div_div_eq_div_mul, Nat.mul_comm, ← Nat.div_div_eq_div_mul]

/-- A strobing `Dimmer` whose transition period has not yet elapsed does
nothing. -/
theorem Dimmer.update_no_toggle (d : Dimmer) (now : Nat) (hs : d.strobe ≠ 0)
    (h : now < d.last_transition_time + d.transition_period) :
    d.update now = some (d, []) := by
  simp only [Dimmer.update]
  rw [if_neg hs, if_neg (Nat.not_le.mpr h)]

/-- A strobing `Dimmer` whose transition period has elapsed performs
exactly one phase toggle. -/
theorem Dimmer.update_toggle (d : Dimmer) (now g : Nat) (hs : d.strobe ≠ 0)
    (hg : d.linear_to_gamma.get? d.dim = some g)
    (h : d.last_transition_time + d.transition_period ≤ now) :
    d.update now = some
      ({ d with
          last_transition_time := now
          last_dim := some (if d.next_transition then d.dim else 0)
          next_transition := !d.next_transition },
       [if d.next_transition then g else 0]) := by
  simp only [Dimmer.update]
  rw [if_neg hs, if_pos h]
  rw [List.get?_eq_getElem?] at hg
  cases hnt : d.next_transition
  · simp [hnt]
  · simp [hnt, hg]

/-! ## Claim C2: strobe toggling -/

/-- Two consecutive phase toggles of a strobing `Dimmer` are at least one
transition period apart. -/
theorem Dimmer.toggle_spacing (d : Dimmer) (g : Nat)
    (hs : d.strobe ≠ 0)
    (hp : d.transition_period = 500000000 / d.strobe)
    (hg : d.linear_to_gamma.get? d.dim = some g) :
    ∀ now1 now2 d1 w1 d2 w2,
      d.update now1 = some (d1, w1) → w1 ≠ [] →
      d1.update now2 = some (d2, w2) → w2 ≠ [] →
      now1 + 500000000 / d.strobe ≤ now2 := by
  intro now1 now2 d1 w1 d2 w2 h1 hw1 h2 hw2
  by_cases hth1 : d.last_transition_time + d.transition_period ≤ now1
  · rw [Dimmer.update_toggle d now1 g hs hg hth1] at h1
    simp only [Option.some.injEq, Prod.mk.injEq] at h1
    obtain ⟨hd1, hw⟩ := h1
    by_cases hth2 : now1 + d.transition_period ≤ now2
    · rw [hp] at hth2
      exact hth2
    · rw [Dimmer.update_no_toggle d1 now2 (by rw [← hd1]; exact hs)
        (by rw [← hd1]; exact Nat.lt_of_not_le hth2)] at h2
      simp only [Option.some.injEq, Prod.mk.injEq] at h2
      exact absurd h2.2.symm hw2
  · rw [Dimmer.update_no_toggle d now1 hs (Nat.lt_of_not_le hth1)] at h1
    simp only [Option.some.injEq, Prod.mk.injEq] at h1
    exact absurd h1.2.symm hw1

/-- The strobe setter establishes `transition_period = 500000000 / strobe`
for every positive requested frequency. -/
theorem Dimmer.set_strobe_period :
    ∀ d0 : Dimmer, ∀ frequency : Int, 0 < frequency →
      (d0.set_strobe frequency).transition_period =
        500000000 / (d0.set_strobe frequency).strobe := by
  intro d0 frequency hf
  by_cases h14 : frequency > 1400
  · have h : d0.set_strobe frequency =
        { d0 with strobe := (1400 : Int).toNat,
                  transition_period := 1000000000 / (1400 : Int).toNat / 2 } := by
      simp only [Dimmer.set_strobe]
      rw [if_neg (by omega : ¬ frequency < 0), if_pos h14,
        if_pos (by omega : (1400 : Int) > 0)]
    rw [h]
    exact billion_div_div _
  · have h : d0.set_strobe frequency =
        { d0 with strobe := frequency.toNat,
                  transition_period := 1000000000 / frequency.toNat / 2 } := by
      simp only [Dimmer.set_strobe]
      rw [if_neg (by omega : ¬ frequency < 0), if_neg h14, if_pos hf]
    rw [h]
    exact billion_div_div _

/-- Claim C2: for a `Dimmer` with strobe frequency `f > 0` holding the
constructor/setter invariant `transition_period = 500000000 / f`:
an `update(now)` with `now ≥ last_transition_time + transition_period`
performs exactly one phase toggle — writing `gamma(dim)` when the pending
phase is on and `0` when it is off — records `now` as the transition time
and flips the pending phase, no matter how many whole periods elapsed;
an `update` below the threshold writes nothing and changes no state; and
two consecutive toggles are spaced at least `500000000 / f` apart.  The
setter establishes the invariant for every positive requested frequency. -/
theorem Dimmer.strobe_update_spec (d : Dimmer) (g : Nat)
    (hs : d.strobe ≠ 0)
    (hp : d.transition_period = 500000000 / d.strobe)
    (hg : d.linear_to_gamma.get? d.dim = some g) :
    (∀ now, d.last_transition_time + d.transition_period ≤ now →
      d.update now = some
        ({ d with
            last_transition_time := now
            last_dim := some (if d.next_transition then d.dim else 0)
            next_transition := !d.next_transition },
         [if d.next_transition then g else 0])) ∧
    (∀ now, now < d.last_transition_time + d.transition_period →
      d.update now = some (d, [])) ∧
    (∀ now1 now2 d1 w1 d2 w2,
      d.update now1 = some (d1, w1) → w1 ≠ [] →
      d1.update now2 = some (d2, w2) → w2 ≠ [] →
      now1 + 500000000 / d.strobe ≤ now2) ∧
    (∀ d0 : Dimmer, ∀ frequency : Int, 0 < frequency →
      (d0.set_strobe frequency).transition_period =
        500000000 / (d0.set_strobe frequency).strobe) :=
  ⟨fun now h => Dimmer.update_toggle d now g hs hg h,
   fun now h => Dimmer.update_no_toggle d now hs h,
   Dimmer.toggle_spacing d g hs hp hg,
   Dimmer.set_strobe_period⟩

/-- Witness for C2 at a concrete strobing dimmer. -/
theorem Dimmer.strobe_update_spec_witness :
    (Dimmer.mk 0 2 250000000 0 true none [7]).update 250000000 =
      some (Dimmer.mk 0 2 250000000 250000000 false (some 0) [7], [7]) := by
  have h := Dimmer.strobe_update_spec (Dimmer.mk 0 2 250000000 0 true none [7]) 7
    (by decide) (by norm_num) rfl
  exact h.1 250000000 (by norm_num)

/-! ## Claim C7: steady (strobe = 0) writes once per distinct dim -/

/-- Claim C7: for a `Dimmer` with `strobe = 0`, an `update` writes
`gamma(dim)` exactly when `dim` differs from the cached last-written value
(`last_dim`, which `enter()` invalidates to `None`), caching `dim`
afterwards; an `update` with `dim` unchanged since the last write performs
no hardware write, so consecutive updates write at most once: any update
immediately following another update writes nothing. -/
theorem Dimmer.steady_write_once_spec (d : Dimmer) (g : Nat) (now : Nat)
    (hs : d.strobe = 0) (hg : d.linear_to_gamma.get? d.dim = some g) :
    (d.last_dim = some d.dim → d.update now = some (d, [])) ∧
    (d.last_dim ≠ some d.dim →
      d.update now = some ({ d with last_dim := some d.dim }, [g])) ∧
    (∀ d' w now', d.update now = some (d', w) → d'.update now' = some (d', [])) := by
  have hskip : d.last_dim = some d.dim → d.update now = some (d, []) := by
    intro hld
    simp only [Dimmer.update]
    rw [if_pos hs, if_neg (by simp [hld])]
  have hwrite : d.last_dim ≠ some d.dim →
      d.update now = some ({ d with last_dim := some d.dim }, [g]) := by
    intro hld
    simp only [Dimmer.update]
    rw [if_pos hs, if_pos (Or.inr hld)]
    rw [hg]
  refine ⟨hskip, hwrite, ?_⟩
  intro d' w now' h
  by_cases hld : d.last_dim = some d.dim
  · rw [hskip hld] at h
    simp only [Option.some.injEq, Prod.mk.injEq] at h
    obtain ⟨hd, -⟩ := h
    subst hd
    simp only [Dimmer.update]
    rw [if_pos hs, if_neg (by simp [hld])]
  · rw [hwrite hld] at h
    simp only [Option.some.injEq, Prod.mk.injEq] at h
    obtain ⟨hd, -⟩ := h
    subst hd
    simp only [Dimmer.update]
    rw [if_pos hs, if_neg (by simp)]

/-- Witness for C7 at a concrete steady dimmer. -/
theorem Dimmer.steady_write_once_spec_witness :
    (Dimmer.mk 5 0 0 0 true none [0, 1, 2, 3, 4, 5]).update 0 =
      some (Dimmer.mk 5 0 0 0 true (some 5) [0, 1, 2, 3, 4, 5], [5]) := by
  have h := Dimmer.steady_write_once_spec
    (Dimmer.mk 5 0 0 0 true none [0, 1, 2, 3, 4, 5]) 5 0 rfl rfl
  exact h.2.1 (by decide)

/-! ## Flicker update lemmas -/

/-- The duty cycle computed by an effective `Flicker.update` with
`dim ≠ 0`: the lag-2 IIR filter applied to the previous duty cycle and the
LFSR draw, scaled by shifting right by `6 - dim`. -/
def Flicker.next_duty (f : Flicker) : Nat :=
  let lowpass := f.duty_cycle
  let newval := if f.rnd_lfsr &&& 0x100 ≠ 0 then 255 else f.rnd_lfsr &&& 255
  (lowpass - (lowpass >>> 1) + (newval <<< 7)) >>> (6 - f.dim)

/-- The unrolled LFSR-advance loop takes between 1 and 3 steps and stops
exactly after the first step whose low byte exceeds 128. -/
theorem Flicker.lfsr_advance_spec (s : Nat) :
    ∃ k, 1 ≤ k ∧ k ≤ 3 ∧ Flicker.lfsr_advance s = Flicker.lfsr_step^[k] s ∧
      (∀ j, 1 ≤ j → j < k → Flicker.lfsr_step^[j] s &&& 255 ≤ 128) ∧
      (k < 3 → 128 < Flicker.lfsr_step^[k] s &&& 255) := by
  have hit1 : Flicker.lfsr_step^[1] s = Flicker.lfsr_step s := Function.iterate_one ..▸ rfl
  have hit2 : Flicker.lfsr_step^[2] s = Flicker.lfsr_step (Flicker.lfsr_step s) := by
    rw [Function.iterate_succ_apply', hit1]
  have hit3 : Flicker.lfsr_step^[3] s =
      Flicker.lfsr_step (Flicker.lfsr_step (Flicker.lfsr_step s)) := by
    rw [Function.iterate_succ_apply', hit2]
  simp only [Flicker.lfsr_advance]
  by_cases h1 : Flicker.lfsr_step s &&& 255 > 128
  · refine ⟨1, le_refl 1, by norm_num, ?_, ?_, fun _ => ?_⟩
    · rw [if_pos h1, hit1]
    · intro j hj hjk; omega
    · rw [hit1]; exact h1
  · by_cases h2 : Flicker.lfsr_step (Flicker.lfsr_step s) &&& 255 > 128
    · refine ⟨2, by norm_num, by norm_num, ?_, ?_, fun _ => ?_⟩
      · rw [if_neg h1, if_pos h2, hit2]
      · intro j hj hjk
        have hj1 : j = 1 := by omega
        subst hj1
        rw [hit1]
        exact Nat.not_lt.mp h1
      · rw [hit2]; exact h2
    · refine ⟨3, by norm_num, le_refl 3, ?_, ?_, fun h3 => absurd h3 (by omega)⟩
      · rw [if_neg h1, if_neg h2, hit3]
      · intro j hj hjk
        have : j = 1 ∨ j = 2 := by omega
        rcases this with rfl | rfl
        · rw [hit1]; exact Nat.not_lt.mp h1
        · rw [hit2]; exact Nat.not_lt.mp h2

/-! ## Claim C3: flicker update -/

/-- Claim C3: for a `Flicker` with `dim` in 1..5, an `update(now)` below
the 30 Hz threshold (`last_flicker + 33333333`) changes no field and
writes nothing; at or above it, it records `now`, computes
`newval = 255` when bit 8 of the LFSR state is set and `state & 0xFF`
otherwise, applies the IIR filter `dc - (dc >> 1) + (newval << 7)`,
scales by `>> (6 - dim)`, writes the result to the PWM sink and returns
it, and advances the LFSR by 1 to 3 steps, stopping after the first step
whose low byte exceeds 128. -/
theorem Flicker.update_spec (f : Flicker) (h1 : 1 ≤ f.dim) (h5 : f.dim ≤ 5) :
    (∀ now, now < f.last_flicker + 33333333 →
      f.update now = some (f, [], f.duty_cycle)) ∧
    (∀ now, f.last_flicker + 33333333 ≤ now →
      f.update now = some
        ({ f with
            last_flicker := now
            duty_cycle := f.next_duty
            rnd_lfsr := Flicker.lfsr_advance f.rnd_lfsr },
         [f.next_duty], f.next_duty)) ∧
    (∀ s, ∃ k, 1 ≤ k ∧ k ≤ 3 ∧ Flicker.lfsr_advance s = Flicker.lfsr_step^[k] s ∧
      (∀ j, 1 ≤ j → j < k → Flicker.lfsr_step^[j] s &&& 255 ≤ 128) ∧
      (k < 3 → 128 < Flicker.lfsr_step^[k] s &&& 255)) := by
  refine ⟨?_, ?_, fun s => Flicker.lfsr_advance_spec s⟩
  · intro now h
    simp only [Flicker.update]
    rw [if_neg (Nat.not_le.mpr h)]
  · intro now h
    simp only [Flicker.update, Flicker.next_duty]
    rw [if_pos h, if_neg (by omega : ¬ f.dim = 0), if_neg (by omega : ¬ 6 < f.dim)]

/-- Witness for C3 at a concrete flicker (seed `0x55CE`, `dim = 3`). -/
theorem Flicker.update_spec_witness :
    (Flicker.mk 21966 0 0 3).update 0 = some (Flicker.mk 21966 0 0 3, [], 0) ∧
    (Flicker.mk 21966 0 0 3).update 33333333 =
      some (Flicker.mk 10983 33333333 4080 3, [4080], 4080) := by
  have h := Flicker.update_spec (Flicker.mk 21966 0 0 3) (by decide) (by decide)
  exact ⟨h.1 0 (by norm_num), h.2.1 33333333 (by norm_num)⟩

/-! ## Flicker reachability -/

/-- The `Flicker` object states reachable in the program: construction
(with the mandatory first `dim` assignment), further `dim` setter calls,
and `update` calls. -/
inductive FlickerReach (seed : Nat) (value : Int) : Flicker → Prop where
  | init : FlickerReach seed value (Flicker.init seed value)
  | set_dim (f : Flicker) (v : Int) :
      FlickerReach seed value f → FlickerReach seed value (f.set_dim v)
  | step (f f' : Flicker) (now : Nat) (w : List Nat) (r : Nat) :
      FlickerReach seed value f → f.update now = some (f', w, r) →
      FlickerReach seed value f'

/-- An update leaves the LFSR state alone or advances it with the unrolled
loop. -/
theorem Flicker.update_lfsr (f f' : Flicker) (now : Nat) (w : List Nat) (r : Nat)
    (h : f.update now = some (f', w, r)) :
    f'.rnd_lfsr = f.rnd_lfsr ∨ f'.rnd_lfsr = Flicker.lfsr_advance f.rnd_lfsr := by
  simp only [Flicker.update] at h
  split at h
  · split at h
    · simp only [Option.some.injEq, Prod.mk.injEq] at h
      exact Or.inl (by rw [← h.1])
    · split at h
      · exact absurd h (by simp)
      · simp only [Option.some.injEq, Prod.mk.injEq] at h
        exact Or.inr (by rw [← h.1])
  · simp only [Option.some.injEq, Prod.mk.injEq] at h
    exact Or.inl (by rw [← h.1])

/-- An update does not change the intensity field. -/
theorem Flicker.update_dim (f f' : Flicker) (now : Nat) (w : List Nat) (r : Nat)
    (h : f.update now = some (f', w, r)) : f'.dim = f.dim := by
  simp only [Flicker.update] at h
  split at h
  · split at h
    · simp only [Option.some.injEq, Prod.mk.injEq] at h
      rw [← h.1]
    · split at h
      · exact absurd h (by simp)
      · simp only [Option.some.injEq, Prod.mk.injEq] at h
        rw [← h.1]
  · simp only [Option.some.injEq, Prod.mk.injEq] at h
    rw [← h.1]

/-! ## Claim C6: dim = 0 forces the output to 0 — corrected -/

/-- Counterexample to C6 as stated: a reachable `Flicker` with `dim = 0`
(seed `0x55CE`, intensity 3, one effective update at 33333333 ns, then
`dim` set to 0) whose `update` at timestamp 33333334 — inside the 30 Hz
rate-limit window — writes nothing to the PWM sink and returns the stale
duty cycle 4080, not 0. -/
theorem Flicker.dim_zero_counterexample :
    (Flicker.mk 10983 33333333 4080 0).dim = 0 ∧
    (Flicker.mk 10983 33333333 4080 0).update 33333334 =
      some (Flicker.mk 10983 33333333 4080 0, [], 4080) ∧
    (4080 : Nat) ≠ 0 ∧
    FlickerReach 21966 3 (Flicker.mk 10983 33333333 4080 0) := by
  refine ⟨rfl, by decide, by decide, ?_⟩
  have h1 : FlickerReach 21966 3 (Flicker.mk 21966 0 0 3) := FlickerReach.init
  have h2 : FlickerReach 21966 3 (Flicker.mk 10983 33333333 4080 3) :=
    FlickerReach.step _ _ 33333333 [4080] 4080 h1 (by decide)
  exact FlickerReach.set_dim _ 0 h2

/-- Claim C6, amended: for a `Flicker` with `dim = 0`, every `update` at
or past the 30 Hz threshold writes `0` to the PWM sink and returns `0`,
regardless of timestamp and LFSR state, changing no field; an update below
the threshold writes nothing and returns the stored duty cycle (which can
be a stale nonzero value). -/
theorem Flicker.dim_zero_update_spec (f : Flicker) (h0 : f.dim = 0) :
    (∀ now, f.last_flicker + 33333333 ≤ now → f.update now = some (f, [0], 0)) ∧
    (∀ now, now < f.last_flicker + 33333333 → f.update now = some (f, [], f.duty_cycle)) := by
  constructor
  · intro now h
    simp only [Flicker.update]
    rw [if_pos h, if_pos h0]
  · intro now h
    simp only [Flicker.update]
    rw [if_neg (Nat.not_le.mpr h)]

/-- Witness for the amended C6 at a concrete flicker. -/
theorem Flicker.dim_zero_update_spec_witness :
    (Flicker.mk 10983 33333333 4080 0).update 66666666 =
      some (Flicker.mk 10983 33333333 4080 0, [0], 0) ∧
    (Flicker.mk 10983 33333333 4080 0).update 33333334 =
      some (Flicker.mk 10983 33333333 4080 0, [], 4080) := by
  have h := Flicker.dim_zero_update_spec (Flicker.mk 10983 33333333 4080 0) rfl
  exact ⟨h.1 66666666 (by norm_num), h.2 33333334 (by norm_num)⟩

/-! ## Claim C5: LFSR never reaches 0 — corrected -/

/-- One LFSR step from a nonzero 16-bit state stays nonzero and 16-bit. -/
theorem Flicker.lfsr_step_inv (s : Nat) (h0 : s ≠ 0) (h16 : s < 65536) :
    Flicker.lfsr_step s ≠ 0 ∧ Flicker.lfsr_step s < 65536 := by
  have hdiv : s >>> 1 = s / 2 := Nat.shiftRight_one s
  have h2p : (65536 : Nat) = 2 ^ 16 := by norm_num
  simp only [Flicker.lfsr_step]
  by_cases hodd : s &&& 1 = 1
  · rw [if_pos hodd]
    have hlt : s >>> 1 < 32768 := by rw [hdiv]; omega
    constructor
    · intro hz
      have heq : s >>> 1 = 0x822B := Nat.xor_eq_zero.mp hz
      rw [heq] at hlt
      norm_num at hlt
    · have ha : s >>> 1 < 2 ^ 16 := by rw [← h2p]; omega
      have hb : (0x822B : Nat) < 2 ^ 16 := by norm_num
      have := Nat.xor_lt_two_pow ha hb
      rw [← h2p] at this
      exact this
  · rw [if_neg hodd]
    have hmod : s % 2 = 0 := by
      have := Nat.and_one_is_mod s
      omega
    rw [hdiv]
    omega

/-- Iterated LFSR steps from a nonzero 16-bit state stay nonzero and
16-bit. -/
theorem Flicker.lfsr_iterate_inv (s : Nat) (h0 : s ≠ 0) (h16 : s < 65536) :
    ∀ n, Flicker.lfsr_step^[n] s ≠ 0 ∧ Flicker.lfsr_step^[n] s < 65536 := by
  intro n
  induction n with
  | zero => exact ⟨h0, h16⟩
  | succ n ih =>
    rw [Function.iterate_succ_apply']
    exact Flicker.lfsr_step_inv _ ih.1 ih.2

/-- The unrolled advance loop preserves the nonzero 16-bit invariant. -/
theorem Flicker.lfsr_advance_inv (s : Nat) (h0 : s ≠ 0) (h16 : s < 65536) :
    Flicker.lfsr_advance s ≠ 0 ∧ Flicker.lfsr_advance s < 65536 := by
  obtain ⟨k, -, -, heq, -, -⟩ := Flicker.lfsr_advance_spec s
  rw [heq]
  exact Flicker.lfsr_iterate_inv s h0 h16 k

/-- Every reachable `Flicker` built from a nonzero 16-bit seed has a
nonzero 16-bit LFSR state. -/
theorem FlickerReach.lfsr_inv (seed : Nat) (value : Int) (f : Flicker)
    (h : FlickerReach seed value f) (h0 : seed ≠ 0) (h16 : seed < 65536) :
    f.rnd_lfsr ≠ 0 ∧ f.rnd_lfsr < 65536 := by
  induction h with
  | init => simpa [Flicker.init, Flicker.set_dim] using And.intro h0 h16
  | set_dim f v hf ih => simpa [Flicker.set_dim] using ih
  | step f f' now w r hf hup ih =>
    rcases Flicker.update_lfsr f f' now w r hup with he | he
    · rw [he]; exact ih
    · rw [he]; exact Flicker.lfsr_advance_inv _ ih.1 ih.2

/-- Counterexample to C5 as stated: the nonzero seed `0x10457` steps to 0
in one LFSR step, and a single `update` from a `Flicker` seeded with it
leaves the LFSR state observed at 0.  (The claim quantifies over every
nonzero seed; the configuration file can supply any integer seed.) -/
theorem Flicker.lfsr_zero_counterexample :
    (66647 : Nat) ≠ 0 ∧ Flicker.lfsr_step 66647 = 0 ∧
    ((Flicker.init 66647 3).update 33333333).map (fun p => p.1.rnd_lfsr) = some 0 := by
  decide

/-- Claim C5, amended: for every nonzero seed below `2^16`, the LFSR state
is never 0 after any number of step applications, and is never observed as
0 in any reachable `Flicker` (any number of `update` and setter calls). -/
theorem Flicker.lfsr_never_zero (seed : Nat) (h0 : seed ≠ 0) (h16 : seed < 65536) :
    (∀ n, Flicker.lfsr_step^[n] seed ≠ 0) ∧
    (∀ value : Int, ∀ f : Flicker, FlickerReach seed value f → f.rnd_lfsr ≠ 0) := by
  constructor
  · intro n
    exact (Flicker.lfsr_iterate_inv seed h0 h16 n).1
  · intro value f hf
    exact (FlickerReach.lfsr_inv seed value f hf h0 h16).1

/-- Witness for the amended C5 at the default seed `0x55CE`. -/
theorem Flicker.lfsr_never_zero_witness :
    Flicker.lfsr_step^[5] 21966 ≠ 0 ∧ (Flicker.init 21966 3).rnd_lfsr ≠ 0 := by
  have h := Flicker.lfsr_never_zero 21966 (by decide) (by decide)
  exact ⟨h.1 5, h.2 3 _ FlickerReach.init⟩

/-! ## Claim C4: clamping invariants and fault freedom -/

/-- The `Dimmer` object states reachable in the program: construction,
setter calls with arbitrary integer arguments, `enter`, and `update`. -/
inductive DimmerReach (table : List Nat) : Dimmer → Prop where
  | init : DimmerReach table (Dimmer.init table)
  | set_dim (d : Dimmer) (v : Int) : DimmerReach table d → DimmerReach table (d.set_dim v)
  | set_strobe (d : Dimmer) (v : Int) :
      DimmerReach table d → DimmerReach table (d.set_strobe v)
  | enter (d : Dimmer) : DimmerReach table d → DimmerReach table d.enter
  | step (d d' : Dimmer) (now : Nat) (w : List Nat) :
      DimmerReach table d → d.update now = some (d', w) → DimmerReach table d'

/-- `Dimmer.update` never changes `dim`, `strobe` or the gamma table. -/
theorem Dimmer.update_fields (d d' : Dimmer) (now : Nat) (w : List Nat)
    (h : d.update now = some (d', w)) :
    d'.dim = d.dim ∧ d'.strobe = d.strobe ∧ d'.linear_to_gamma = d.linear_to_gamma := by
  simp only [Dimmer.update] at h
  repeat' split at h
  all_goals try simp only [Option.some.injEq, Prod.mk.injEq] at h
  all_goals first
    | (obtain ⟨h1, h2⟩ := h
       rw [← h1]
       exact ⟨rfl, rfl, rfl⟩)
    | simp at h

/-- `Dimmer.update` cannot fault while `dim` indexes into the gamma
table. -/
theorem Dimmer.update_isSome (d : Dimmer) (hlt : d.dim < d.linear_to_gamma.length) :
    ∀ now, d.update now ≠ none := by
  intro now
  obtain ⟨g, hg⟩ : ∃ g, d.linear_to_gamma.get? d.dim = some g :=
    ⟨d.linear_to_gamma.get ⟨d.dim, hlt⟩, List.get?_eq_get hlt⟩
  simp only [Dimmer.update, hg]
  repeat' split
  all_goals simp

/-- Every reachable `Dimmer` keeps `dim ≤ 255`, `strobe ≤ 1400` and the
gamma table built at construction. -/
theorem DimmerReach.inv (table : List Nat) (d : Dimmer) (h : DimmerReach table d) :
    d.dim ≤ 255 ∧ d.strobe ≤ 1400 ∧ d.linear_to_gamma = table := by
  induction h with
  | init => exact ⟨by simp [Dimmer.init], by simp [Dimmer.init], rfl⟩
  | set_dim d v hd ih =>
    refine ⟨?_, ?_, ?_⟩
    · simp only [Dimmer.set_dim]
      split_ifs <;> omega
    · simpa [Dimmer.set_dim] using ih.2.1
    · simpa [Dimmer.set_dim] using ih.2.2
  | set_strobe d v hd ih =>
    refine ⟨?_, ?_, ?_⟩
    · simp only [Dimmer.set_strobe]
      split_ifs <;> simpa using ih.1
    · simp only [Dimmer.set_strobe]
      split_ifs <;> simp <;> omega
    · simp only [Dimmer.set_strobe]
      split_ifs <;> simpa using ih.2.2
  | enter d hd ih => simpa [Dimmer.enter] using ih
  | step d d' now w hd hup ih =>
    obtain ⟨h1, h2, h3⟩ := Dimmer.update_fields d d' now w hup
    exact ⟨h1 ▸ ih.1, h2 ▸ ih.2.1, h3 ▸ ih.2.2⟩

/-- Every reachable `Flicker` keeps `dim ≤ 5`. -/
theorem FlickerReach.dim_inv (seed : Nat) (value : Int) (f : Flicker)
    (h : FlickerReach seed value f) : f.dim ≤ 5 := by
  induction h with
  | init =>
    simp only [Flicker.init, Flicker.set_dim]
    split_ifs <;> omega
  | set_dim f v hf ih =>
    simp only [Flicker.set_dim]
    split_ifs <;> omega
  | step f f' now w r hf hup ih =>
    rw [Flicker.update_dim f f' now w r hup]
    exact ih

/-- `Flicker.update` cannot fault while `dim ≤ 6`. -/
theorem Flicker.update_total (f : Flicker) (hdim : f.dim ≤ 6) :
    ∀ now, f.update now ≠ none := by
  intro now
  simp only [Flicker.update]
  split_ifs <;> first | (exfalso; omega) | simp

/-- Claim C4: every reachable `Dimmer` has `dim` in 0..255 and `strobe` in
0..1400, out-of-range setter arguments are clamped to the nearest bound;
every reachable `Flicker` has `dim` in 0..5; and consequently no reachable
effect's `update` ever faults (in particular the gamma-table indexing is
always in bounds). -/
theorem effect_setter_safety (table : List Nat) (hlen : table.length = 256) :
    (∀ d, DimmerReach table d →
      d.dim ≤ 255 ∧ d.strobe ≤ 1400 ∧ ∀ now, d.update now ≠ none) ∧
    (∀ d : Dimmer, ∀ v : Int,
      (v < 0 → (d.set_dim v).dim = 0) ∧ (255 < v → (d.set_dim v).dim = 255) ∧
      (0 ≤ v → v ≤ 255 → (d.set_dim v).dim = v.toNat) ∧
      (v < 0 → (d.set_strobe v).strobe = 0) ∧ (1400 < v → (d.set_strobe v).strobe = 1400) ∧
      (0 ≤ v → v ≤ 1400 → (d.set_strobe v).strobe = v.toNat)) ∧
    (∀ f : Flicker, ∀ v : Int,
      (v < 0 → (f.set_dim v).dim = 0) ∧ (5 < v → (f.set_dim v).dim = 5) ∧
      (0 ≤ v → v ≤ 5 → (f.set_dim v).dim = v.toNat)) ∧
    (∀ seed : Nat, ∀ value : Int, ∀ f, FlickerReach seed value f →
      f.dim ≤ 5 ∧ ∀ now, f.update now ≠ none) := by
  refine ⟨?_, ?_, ?_, ?_⟩
  · intro d hd
    obtain ⟨h1, h2, h3⟩ := DimmerReach.inv table d hd
    refine ⟨h1, h2, Dimmer.update_isSome d ?_⟩
    rw [h3, hlen]
    omega
  · intro d v
    refine ⟨?_, ?_, ?_, ?_, ?_, ?_⟩ <;> intros <;>
      simp only [Dimmer.set_dim, Dimmer.set_strobe] <;> split_ifs <;>
      first | omega | (dsimp only; try omega)
  · intro f v
    refine ⟨?_, ?_, ?_⟩ <;> intros <;>
      simp only [Flicker.set_dim] <;> split_ifs <;> omega
  · intro seed value f hf
    have h5 := FlickerReach.dim_inv seed value f hf
    exact ⟨h5, Flicker.update_total f (by omega)⟩

/-- Witness for C4 at freshly constructed effects over a length-256
table. -/
theorem effect_setter_safety_witness :
    ((Dimmer.init (List.replicate 256 0)).dim ≤ 255 ∧
     (Dimmer.init (List.replicate 256 0)).strobe ≤ 1400 ∧
     ∀ now, (Dimmer.init (List.replicate 256 0)).update now ≠ none) ∧
    ((Flicker.init 21966 3).dim ≤ 5 ∧
     ∀ now, (Flicker.init 21966 3).update now ≠ none) := by
  have h := effect_setter_safety (List.replicate 256 0) (List.length_replicate 256 0)
  exact ⟨h.1 _ DimmerReach.init, h.2.2.2 21966 3 _ FlickerReach.init⟩

/-! ## Claim C8: triggered state update -/

/-- The effect-update loop preserves the list length and updates each
owned effect with the one shared timestamp. -/
theorem updateEffects_sound :
    ∀ (effects : List EffectState) (now : Nat) (es : List EffectState) (ws : List Nat),
      updateEffects effects now = some (es, ws) →
      es.length = effects.length ∧
      ∀ i (hi : i < effects.length) (hi' : i < es.length),
        ∃ w, (effects.get ⟨i, hi⟩).update now = some (es.get ⟨i, hi'⟩, w) := by
  intro effects
  induction effects with
  | nil =>
    intro now es ws h
    simp only [updateEffects, Option.some.injEq, Prod.mk.injEq] at h
    obtain ⟨h1, -⟩ := h
    subst h1
    exact ⟨rfl, fun i hi hi' => absurd hi (by simp)⟩
  | cons e rest ih =>
    intro now es ws h
    simp only [updateEffects] at h
    cases he : e.update now with
    | none => rw [he] at h; simp at h
    | some p =>
      rw [he] at h
      obtain ⟨e', w⟩ := p
      cases hrest : updateEffects rest now with
      | none => rw [hrest] at h; simp at h
      | some q =>
        rw [hrest] at h
        obtain ⟨es', ws'⟩ := q
        simp only [Option.some.injEq, Prod.mk.injEq] at h
        obtain ⟨hes, -⟩ := h
        subst hes
        obtain ⟨hlen, hget⟩ := ih now es' ws' hrest
        refine ⟨by simp [hlen], ?_⟩
        intro i hi hi'
        cases i with
        | zero => exact ⟨w, by simpa using he⟩
        | succ n =>
          have hn : n < rest.length := by simpa using hi
          have hn' : n < es'.length := by simpa using hi'
          obtain ⟨w', hw'⟩ := hget n hn hn'
          exact ⟨w', by simpa using hw'⟩

/-- Claim C8: when the playback channel reports not playing at the start
of `TriggeredState.update`, the machine is sent back to `ambient` and none
of the state's owned effects is updated that tick; otherwise every owned
effect is updated, in order, with the single shared timestamp sampled
once for the batch. -/
theorem TriggeredState.tick_spec :
    (∀ (effects : List EffectState) (now : Nat),
      TriggeredState.update effects false now = some (true, effects, [])) ∧
    (∀ (effects : List EffectState) (now : Nat) (es : List EffectState) (ws : List Nat),
      updateEffects effects now = some (es, ws) →
      TriggeredState.update effects true now = some (false, es, ws) ∧
      es.length = effects.length ∧
      ∀ i (hi : i < effects.length) (hi' : i < es.length),
        ∃ w, (effects.get ⟨i, hi⟩).update now = some (es.get ⟨i, hi'⟩, w)) := by
  constructor
  · intro effects now
    simp [TriggeredState.update]
  · intro effects now es ws h
    obtain ⟨hlen, hget⟩ := updateEffects_sound effects now es ws h
    refine ⟨?_, hlen, hget⟩
    simp [TriggeredState.update, h]

/-- Witness for C8 at a concrete one-effect state. -/
theorem TriggeredState.tick_spec_witness :
    TriggeredState.update [EffectState.flicker (Flicker.mk 21966 0 0 3)] false 5 =
      some (true, [EffectState.flicker (Flicker.mk 21966 0 0 3)], []) ∧
    TriggeredState.update [EffectState.flicker (Flicker.mk 21966 0 0 3)] true 5 =
      some (false, [EffectState.flicker (Flicker.mk 21966 0 0 3)], []) := by
  have h := TriggeredState.tick_spec
  exact ⟨h.1 _ 5,
    (h.2 [EffectState.flicker (Flicker.mk 21966 0 0 3)] 5
      [EffectState.flicker (Flicker.mk 21966 0 0 3)] [] (by decide)).1⟩

/-! ## Claim C9: gamma table -/

/-- Entry 0 of the gamma table is 0 for any nonzero exponent. -/
theorem gammaEntry_zero (gamma : ℝ) (hg : gamma ≠ 0) : gammaEntry gamma 0 = 0 := by
  unfold gammaEntry
  rw [show ((0 : ℕ) : ℝ) / 255 = 0 by norm_num, Real.zero_rpow hg, zero_mul, zero_add]
  rw [Int.floor_eq_iff]
  norm_num

/-- Entry 255 of the gamma table is 65535 for any exponent. -/
theorem gammaEntry_max (gamma : ℝ) : gammaEntry gamma 255 = 65535 := by
  unfold gammaEntry
  rw [show ((255 : ℕ) : ℝ) / 255 = 1 by norm_num, Real.one_rpow, one_mul]
  rw [Int.floor_eq_iff]
  norm_num

/-- Adjacent gamma-table entries are non-decreasing for positive
exponents. -/
theorem gammaEntry_mono (gamma : ℝ) (hg : 0 < gamma) (i : ℕ) :
    gammaEntry gamma i ≤ gammaEntry gamma (i + 1) := by
  unfold gammaEntry
  apply Int.floor_le_floor
  have hcast : ((i : ℕ) : ℝ) ≤ ((i + 1 : ℕ) : ℝ) := by push_cast; linarith
  have hbase : ((i : ℕ) : ℝ) / 255 ≤ ((i + 1 : ℕ) : ℝ) / 255 :=
    (div_le_div_iff_of_pos_right (by norm_num)).mpr hcast
  have hpow := Real.rpow_le_rpow (by positivity) hbase hg.le
  have hmul := mul_le_mul_of_nonneg_right hpow (by norm_num : (0 : ℝ) ≤ 65535)
  linarith

/-- Claim C9: the gamma table built at `Dimmer` construction has 256
entries, entry `i` equal to `⌊(i/255)^gamma * 65535 + 1/2⌋` (round-half-up
of the real-valued formula the source computes in floating point); for any
positive exponent (in particular the default 2.2) entry 0 is 0 and entry
255 is 65535, and the table is monotonically non-decreasing across all
adjacent indices. -/
theorem gammaTable_spec (gamma : ℝ) (hg : 0 < gamma) :
    (gammaTable gamma).length = 256 ∧
    (∀ i, i < 256 → (gammaTable gamma).get? i =
      some ⌊((i : ℝ) / 255) ^ gamma * 65535 + 1 / 2⌋) ∧
    gammaEntry gamma 0 = 0 ∧ gammaEntry gamma 255 = 65535 ∧
    (∀ i, gammaEntry gamma i ≤ gammaEntry gamma (i + 1)) := by
  refine ⟨by simp [gammaTable], ?_, gammaEntry_zero gamma (ne_of_gt hg),
    gammaEntry_max gamma, gammaEntry_mono gamma hg⟩
  intro i hi
  simp [gammaTable, List.getElem?_map, List.getElem?_range hi, gammaEntry]

/-- Witness for C9 at the source's default exponent 2.2. -/
theorem gammaTable_spec_witness :
    (gammaTable 2.2).length = 256 ∧ gammaEntry 2.2 0 = 0 ∧
    gammaEntry 2.2 255 = 65535 := by
  have h := gammaTable_spec 2.2 (by norm_num)
  exact ⟨h.1, h.2.2.1, h.2.2.2.1⟩

end ActorController
